import Mathlib

/-!
Verification of the Adaptive SHiP-D last-level-cache replacement policy
(source: 066_adaptive_ship_d.cc).  The C++ globals become one explicit
state record, machine integers become Nat/Int with explicit wrap where it
matters, and the unbounded victim-search loop becomes a fueled loop whose
fuel bound is proved sufficient on the 2-bit rrpv domain.
-/

namespace AdaptiveShipD

/-! ## Compile-time constants (from the #define block) -/

def LLC_SETS : Nat := 2048
def LLC_WAYS : Nat := 16
def MAX_RRPV : Nat := 3
def SIG_TABLE_SIZE : Nat := 2048
def SHCT_INIT : Nat := 2
def SHCT_MAX : Nat := 3
def SHCT_THRESHOLD : Nat := 2
def STCT_INIT : Nat := 1
def STCT_MAX : Nat := 3
def EPOCH_LENGTH : Nat := 100000
def PHASE_CHANGE_DELTA : ℚ := 0.05
def STREAM_LOW_RATIO : ℚ := 0.10
def STREAM_HIGH_RATIO : ℚ := 0.70

/-- INVALID_BLK = (uint64_t)-1, the "no previous address" sentinel. -/
def INVALID_BLK : Nat := 2 ^ 64 - 1

/-- Value of a Nat reinterpreted as a C int64_t (two's complement). -/
def toInt64 (n : Nat) : ℤ :=
  if n % 2 ^ 64 < 2 ^ 63 then ((n % 2 ^ 64 : Nat) : ℤ)
  else ((n % 2 ^ 64 : Nat) : ℤ) - 2 ^ 64

/-- Model of the champsim BLOCK records handed to GetVictimInSet via the
current_set pointer; the policy never reads them. -/
structure BLOCK where
  valid : Bool
  tag : Nat
  data : Nat

/-- All the C++ file-scope mutable globals, gathered into one record.
Per-line arrays are indexed (set, way); per-signature tables by signature. -/
structure PolicyState where
  RRPV : Nat → Nat → Nat
  valid_entries : Nat → Nat → Bool
  sig_mem : Nat → Nat → Nat
  has_hit : Nat → Nat → Bool
  is_streaming : Nat → Nat → Bool
  SHCT : Nat → Nat
  STCT : Nat → Nat
  last_addr : Nat → Nat
  g_STCT_THRESHOLD : Nat
  stat_hits : Nat
  stat_misses : Nat
  epoch_accesses : Nat
  epoch_hits : Nat
  epoch_misses : Nat
  stream_inserts : Nat
  stream_hits : Nat
  stream_misses : Nat
  prev_miss_rate : ℚ

/-- Hash PC to signature: (PC ^ (PC >> 12) ^ (PC >> 20)) & (SIG_TABLE_SIZE-1),
with PC taken as a 64-bit value. -/
def GetSignature (PC : Nat) : Nat :=
  let p := PC % 2 ^ 64
  (p ^^^ (p >>> 12) ^^^ (p >>> 20)) &&& (SIG_TABLE_SIZE - 1)

/-- InitReplacementState(): zero the counters, set the threshold to
STCT_INIT + 1 = 2, invalidate every line with rrpv = MAX_RRPV, and set every
signature entry to its initial value. -/
def InitReplacementState : PolicyState where
  RRPV := fun _ _ => MAX_RRPV
  valid_entries := fun _ _ => false
  sig_mem := fun _ _ => 0
  has_hit := fun _ _ => false
  is_streaming := fun _ _ => false
  SHCT := fun _ => SHCT_INIT
  STCT := fun _ => STCT_INIT
  last_addr := fun _ => INVALID_BLK
  g_STCT_THRESHOLD := STCT_INIT + 1
  stat_hits := 0
  stat_misses := 0
  epoch_accesses := 0
  epoch_hits := 0
  epoch_misses := 0
  stream_inserts := 0
  stream_hits := 0
  stream_misses := 0
  prev_miss_rate := 0

/-! ## Victim selection (FindVictimWay) -/

/-- First index v with start ≤ v < start + n and p v = true, scanning upward;
this is the C pattern `for (w = start; w < start+n; w++) if (p(w)) return w`. -/
def scanFrom (p : Nat → Bool) : Nat → Nat → Option Nat
  | _, 0 => none
  | w, n + 1 => if p w then some w else scanFrom p (w + 1) n

/-- One aging pass: every way whose rrpv is below MAX_RRPV is incremented. -/
def agePass (rr : Nat → Nat) : Nat → Nat :=
  fun w => if w < LLC_WAYS ∧ rr w < MAX_RRPV then rr w + 1 else rr w

/-- Fueled version of the `while (true)` scan-then-age loop in FindVictimWay.
The C loop is unbounded; on the 2-bit rrpv domain it exits within
MAX_RRPV + 1 scans (proved below), so that fuel is used by FindVictimWay. -/
def victimLoopF : Nat → (Nat → Nat) → Option (Nat × (Nat → Nat))
  | 0, _ => none
  | fuel + 1, rr =>
    match scanFrom (fun w => rr w == MAX_RRPV) 0 LLC_WAYS with
    | some w => some (w, rr)
    | none => victimLoopF fuel (agePass rr)

/-- FindVictimWay(set): return the first invalid way if any; otherwise run the
scan-then-age loop, committing the aged rrpv values of this set.  The final
default arm models the region where the C loop never exits (every rrpv above
MAX_RRPV); it is unreachable from states satisfying the rrpv ≤ 3 invariant. -/
def FindVictimWay (st : PolicyState) (set : Nat) : Nat × PolicyState :=
  match scanFrom (fun w => !st.valid_entries set w) 0 LLC_WAYS with
  | some w => (w, st)
  | none =>
    match victimLoopF (MAX_RRPV + 1) (fun w => st.RRPV set w) with
    | some (w, rr) =>
      (w, { st with RRPV := fun s v => if s = set then rr v else st.RRPV s v })
    | none => (0, st)

/-! ## GetVictimInSet pieces -/

/-- Stream-detector update at the top of GetVictimInSet: when a previous
block address exists, bump STCT[sig] on a ±1 int64 delta (saturating at
STCT_MAX) and decay it otherwise (floor 0); always record the new address. -/
def streamUpdate (st : PolicyState) (sig blk_addr : Nat) : PolicyState :=
  { st with
    STCT := fun i =>
      if i = sig ∧ st.last_addr sig ≠ INVALID_BLK then
        if toInt64 blk_addr - toInt64 (st.last_addr sig) = 1 ∨
            toInt64 blk_addr - toInt64 (st.last_addr sig) = -1 then
          if st.STCT sig < STCT_MAX then st.STCT sig + 1 else st.STCT sig
        else
          if 0 < st.STCT sig then st.STCT sig - 1 else st.STCT sig
      else st.STCT i,
    last_addr := fun i => if i = sig then blk_addr else st.last_addr i }

/-- Eviction penalties in GetVictimInSet: when the chosen way holds a valid
never-hit line, decrement its stored signature's SHCT (floor 0), and count a
streaming miss when that line was installed as streaming. -/
def evictPenalty (st : PolicyState) (set way : Nat) : PolicyState :=
  { st with
    SHCT := fun i =>
      if i = st.sig_mem set way ∧ st.valid_entries set way = true ∧
          st.has_hit set way = false ∧ 0 < st.SHCT (st.sig_mem set way) then
        st.SHCT (st.sig_mem set way) - 1
      else st.SHCT i,
    stream_misses :=
      if st.valid_entries set way = true ∧ st.is_streaming set way = true ∧
          st.has_hit set way = false then
        st.stream_misses + 1
      else st.stream_misses }

/-- Line installation at the end of GetVictimInSet: store the signature, mark
the way valid and un-hit, classify streaming against the dynamic threshold,
count streaming inserts, and set the three-tier initial rrpv. -/
def installLine (st : PolicyState) (set way sig : Nat) : PolicyState :=
  { st with
    sig_mem := fun s w => if s = set ∧ w = way then sig else st.sig_mem s w,
    valid_entries := fun s w =>
      if s = set ∧ w = way then true else st.valid_entries s w,
    has_hit := fun s w => if s = set ∧ w = way then false else st.has_hit s w,
    is_streaming := fun s w =>
      if s = set ∧ w = way then decide (st.g_STCT_THRESHOLD ≤ st.STCT sig)
      else st.is_streaming s w,
    stream_inserts :=
      if st.g_STCT_THRESHOLD ≤ st.STCT sig then st.stream_inserts + 1
      else st.stream_inserts,
    RRPV := fun s w =>
      if s = set ∧ w = way then
        if SHCT_THRESHOLD ≤ st.SHCT sig then 0
        else if st.g_STCT_THRESHOLD ≤ st.STCT sig then 1
        else MAX_RRPV
      else st.RRPV s w }

/-- GetVictimInSet(cpu, set, current_set, PC, paddr, type): stream-detector
update for the incoming signature, victim selection, eviction penalties,
then installation of the new line.  Returns the chosen way and the new
state; current_set is never read. -/
def GetVictimInSet (st : PolicyState) (cpu set : Nat) (current_set : Nat → BLOCK)
    (PC paddr type : Nat) : Nat × PolicyState :=
  let sig := GetSignature PC
  let blk_addr := (paddr % 2 ^ 64) >>> 6
  let st1 := streamUpdate st sig blk_addr
  let v := FindVictimWay st1 set
  let st3 := evictPenalty v.2 set v.1
  (v.1, installLine st3 set v.1 sig)

/-! ## Epoch monitor and the UpdateReplacementState entry point -/

/-- Miss rate of the current epoch, 0 when the epoch saw no accesses.
The C double arithmetic on these exact integer operands is modelled by
exact rational arithmetic. -/
def epochMissRate (st : PolicyState) : ℚ :=
  if st.epoch_accesses ≠ 0 then (st.epoch_misses : ℚ) / (st.epoch_accesses : ℚ)
  else 0

/-- Stream hit ratio of the current epoch, 0 when nothing was inserted as
streaming this epoch. -/
def streamRatio (st : PolicyState) : ℚ :=
  if st.stream_inserts ≠ 0 then (st.stream_hits : ℚ) / (st.stream_inserts : ℚ)
  else 0

/-- Phase-change detection in MonitorEpoch: on a miss-rate swing of at least
PHASE_CHANGE_DELTA, reset every STCT entry to STCT_INIT and every last_addr
entry to the sentinel; SHCT is untouched. -/
def phaseReset (st : PolicyState) : PolicyState :=
  if PHASE_CHANGE_DELTA ≤ |epochMissRate st - st.prev_miss_rate| then
    { st with STCT := fun _ => STCT_INIT, last_addr := fun _ => INVALID_BLK }
  else st

/-- Threshold adaptation in MonitorEpoch, applied to the stream hit ratio r:
below STREAM_LOW_RATIO bump the threshold (only while below STCT_MAX), above
STREAM_HIGH_RATIO drop it (only while above 1). -/
def adjustThreshold (r : ℚ) (st : PolicyState) : PolicyState :=
  if r < STREAM_LOW_RATIO ∧ st.g_STCT_THRESHOLD < STCT_MAX then
    { st with g_STCT_THRESHOLD := st.g_STCT_THRESHOLD + 1 }
  else if STREAM_HIGH_RATIO < r ∧ 1 < st.g_STCT_THRESHOLD then
    { st with g_STCT_THRESHOLD := st.g_STCT_THRESHOLD - 1 }
  else st

/-- MonitorEpoch(): phase-change reset, then threshold adaptation, then the
epoch-counter reset.  The stream ratio is computed from st directly: the C
code reads those globals after the phase reset, which does not write them. -/
def MonitorEpoch (st : PolicyState) : PolicyState :=
  { adjustThreshold (streamRatio st) (phaseReset st) with
    prev_miss_rate := epochMissRate st,
    epoch_accesses := 0, epoch_hits := 0, epoch_misses := 0,
    stream_inserts := 0, stream_hits := 0, stream_misses := 0 }

/-- Hit branch of UpdateReplacementState: count the hit, mark the line hit,
promote it to rrpv 0, reward its stored signature's SHCT (saturating), and
count a streaming hit when the line was installed as streaming. -/
def hitUpdate (st : PolicyState) (set way : Nat) : PolicyState :=
  { st with
    epoch_accesses := st.epoch_accesses + 1,
    stat_hits := st.stat_hits + 1,
    epoch_hits := st.epoch_hits + 1,
    has_hit := fun s w => if s = set ∧ w = way then true else st.has_hit s w,
    RRPV := fun s w => if s = set ∧ w = way then 0 else st.RRPV s w,
    SHCT := fun i =>
      if i = st.sig_mem set way ∧ st.SHCT (st.sig_mem set way) < SHCT_MAX then
        st.SHCT (st.sig_mem set way) + 1
      else st.SHCT i,
    stream_hits :=
      if st.is_streaming set way then st.stream_hits + 1 else st.stream_hits }

/-- Miss branch of UpdateReplacementState: count the miss. -/
def missUpdate (st : PolicyState) : PolicyState :=
  { st with
    epoch_accesses := st.epoch_accesses + 1,
    stat_misses := st.stat_misses + 1,
    epoch_misses := st.epoch_misses + 1 }

/-- UpdateReplacementState(cpu, set, way, paddr, PC, victim_addr, type, hit):
hit or miss bookkeeping, then MonitorEpoch at an epoch boundary.  hit is the
C uint8_t truth value. -/
def UpdateReplacementState (st : PolicyState)
    (cpu set way paddr PC victim_addr type hit : Nat) : PolicyState :=
  let st2 := if hit % 256 ≠ 0 then hitUpdate st set way else missUpdate st
  if EPOCH_LENGTH ≤ st2.epoch_accesses then MonitorEpoch st2 else st2

/-! ## Reachability (the harness drives Init, then victim/update calls) -/

/-- States reachable from InitReplacementState by any sequence of
GetVictimInSet and UpdateReplacementState calls with arbitrary arguments. -/
inductive Reachable : PolicyState → Prop
  | init : Reachable InitReplacementState
  | victim (st : PolicyState) (cpu set : Nat) (cs : Nat → BLOCK)
      (PC paddr type : Nat) :
      Reachable st → Reachable (GetVictimInSet st cpu set cs PC paddr type).2
  | update (st : PolicyState) (cpu set way paddr PC victim_addr type hit : Nat) :
      Reachable st →
      Reachable (UpdateReplacementState st cpu set way paddr PC victim_addr type hit)

/-! ## Concrete scenario material -/

/-- Dummy current_set contents (never read by the policy). -/
def cs0 : Nat → BLOCK := fun _ => ⟨false, 0, 0⟩

/-- One simulated miss round in set 0: PC = i, paddr = 64 * i (so the block
address is i and the signature is i for i < 2048), victim selection followed
by the outcome report with hit = 0. -/
def missRound (st : PolicyState) (i : Nat) : PolicyState :=
  let v := GetVictimInSet st 0 0 cs0 i (64 * i) 0
  UpdateReplacementState v.2 0 0 v.1 (64 * i) i 0 0 0

/-- State after n miss rounds starting from InitReplacementState. -/
def runN (n : Nat) : PolicyState :=
  (List.range n).foldl missRound InitReplacementState

/-- Mid-epoch state with a 1/10 epoch miss rate, used as a concrete input. -/
def stC3 : PolicyState :=
  { InitReplacementState with epoch_accesses := 10, epoch_misses := 1 }

/-- Epoch state with stream hit ratio 1/20 (below the low bound). -/
def stC4a : PolicyState :=
  { InitReplacementState with stream_inserts := 20, stream_hits := 1 }

/-- Epoch state with stream hit ratio 9/10 (above the high bound). -/
def stC4b : PolicyState :=
  { InitReplacementState with stream_inserts := 20, stream_hits := 18 }

/-- Epoch state with stream hit ratio 1/2 (between the bounds). -/
def stC4c : PolicyState :=
  { InitReplacementState with stream_inserts := 2, stream_hits := 1 }

/-- State remembering block address 9 for signature 5, used as a concrete
input for the stream detector. -/
def stC5 : PolicyState :=
  { InitReplacementState with
    last_addr := fun i => if i = 5 then 9 else INVALID_BLK }

/-- Set state with ways 0..2 valid and the rest invalid. -/
def stC8 : PolicyState :=
  { InitReplacementState with
    valid_entries := fun _ w => decide (w < 3),
    RRPV := fun _ _ => 1 }

/-- Full set of valid, never-hit, streaming lines with signature 7; way 0 is
at rrpv 3 and is the eviction victim. -/
def stC9 : PolicyState :=
  { InitReplacementState with
    valid_entries := fun _ _ => true,
    sig_mem := fun _ _ => 7,
    is_streaming := fun _ _ => true,
    RRPV := fun _ w => if w = 0 then 3 else 2 }

/-- Like stC9 but every line has already been hit. -/
def stC9b : PolicyState :=
  { stC9 with has_hit := fun _ _ => true }

/-! ## Facts about the way scan -/

theorem scanFrom_eq_some {p : Nat → Bool} {start n v : Nat}
    (h : scanFrom p start n = some v) :
    start ≤ v ∧ v < start + n ∧ p v = true ∧
      ∀ u, start ≤ u → u < v → p u = false := by
  induction n generalizing start with
  | zero => simp [scanFrom] at h
  | succ n ih =>
    simp only [scanFrom] at h
    by_cases hp : p start = true
    · rw [if_pos hp] at h
      cases h
      exact ⟨Nat.le_refl _, by omega, hp, fun u hu1 hu2 => absurd hu1 (by omega)⟩
    · rw [if_neg hp] at h
      obtain ⟨h1, h2, h3, h4⟩ := ih h
      refine ⟨by omega, by omega, h3, ?_⟩
      intro u hu1 hu2
      rcases Nat.eq_or_lt_of_le hu1 with heq | hlt
      · rw [← heq]
        exact Bool.not_eq_true _ ▸ Bool.of_not_eq_true hp
      · exact h4 u hlt hu2

theorem scanFrom_isSome {p : Nat → Bool} {start n v : Nat}
    (h1 : start ≤ v) (h2 : v < start + n) (hp : p v = true) :
    (scanFrom p start n).isSome = true := by
  induction n generalizing start with
  | zero => omega
  | succ n ih =>
    simp only [scanFrom]
    by_cases hs : p start = true
    · rw [if_pos hs]; rfl
    · rw [if_neg hs]
      have hne : start ≠ v := fun he => hs (he ▸ hp)
      exact ih (by omega) (by omega)

theorem scanFrom_eq_none {p : Nat → Bool} {start n : Nat}
    (h : scanFrom p start n = none) :
    ∀ v, start ≤ v → v < start + n → p v = false := by
  induction n generalizing start with
  | zero => omega
  | succ n ih =>
    simp only [scanFrom] at h
    by_cases hs : p start = true
    · rw [if_pos hs] at h; cases h
    · rw [if_neg hs] at h
      intro v hv1 hv2
      rcases Nat.eq_or_lt_of_le hv1 with heq | hlt
      · rw [← heq]; exact Bool.not_eq_true _ ▸ Bool.of_not_eq_true hs
      · exact ih h v hlt (by omega)

/-! ## Facts about the fueled aging loop -/

theorem agePass_le {rr : Nat → Nat} (h : ∀ v, rr v ≤ MAX_RRPV) :
    ∀ v, agePass rr v ≤ MAX_RRPV := by
  intro v
  unfold agePass
  have := h v
  split <;> omega

theorem victimLoopF_some_lt {fuel : Nat} {rr rr' : Nat → Nat} {w : Nat}
    (h : victimLoopF fuel rr = some (w, rr')) : w < LLC_WAYS := by
  induction fuel generalizing rr with
  | zero => simp [victimLoopF] at h
  | succ fuel ih =>
    simp only [victimLoopF] at h
    rcases hs : scanFrom (fun w => rr w == MAX_RRPV) 0 LLC_WAYS with _ | v
    · rw [hs] at h
      exact ih h
    · rw [hs] at h
      cases h
      have := scanFrom_eq_some hs
      omega

theorem victimLoopF_some_bounded {fuel : Nat} {rr rr' : Nat → Nat} {w : Nat}
    (h : victimLoopF fuel rr = some (w, rr')) (hb : ∀ v, rr v ≤ MAX_RRPV) :
    ∀ v, rr' v ≤ MAX_RRPV := by
  induction fuel generalizing rr with
  | zero => simp [victimLoopF] at h
  | succ fuel ih =>
    simp only [victimLoopF] at h
    rcases hs : scanFrom (fun w => rr w == MAX_RRPV) 0 LLC_WAYS with _ | v
    · rw [hs] at h
      exact ih h (agePass_le hb)
    · rw [hs] at h
      cases h
      exact hb

theorem victimLoopF_isSome {fuel : Nat} {rr : Nat → Nat}
    (hex : ∃ w, w < LLC_WAYS ∧ MAX_RRPV - rr w < fuel)
    (hb : ∀ w, w < LLC_WAYS → rr w ≤ MAX_RRPV) :
    (victimLoopF fuel rr).isSome = true := by
  induction fuel generalizing rr with
  | zero => omega
  | succ fuel ih =>
    simp only [victimLoopF]
    rcases hs : scanFrom (fun w => rr w == MAX_RRPV) 0 LLC_WAYS with _ | v
    · have hnone := scanFrom_eq_none hs
      obtain ⟨w, hw, hfuel⟩ := hex
      have hne : ∀ v, v < LLC_WAYS → rr v ≠ MAX_RRPV := by
        intro v hv
        have := hnone v (Nat.zero_le _) (by omega)
        simpa using this
      refine ih ⟨w, hw, ?_⟩ ?_
      · have h1 := hb w hw
        have h2 := hne w hw
        unfold agePass
        rw [if_pos ⟨hw, by omega⟩]
        omega
      · intro v hv
        have h1 := hb v hv
        have h2 := hne v hv
        unfold agePass
        split <;> omega
    · rfl

theorem victimLoopF_stable {fuel : Nat} (k : Nat) {rr : Nat → Nat}
    (h : (victimLoopF fuel rr).isSome = true) :
    victimLoopF (fuel + k) rr = victimLoopF fuel rr := by
  induction fuel generalizing rr with
  | zero => simp [victimLoopF] at h
  | succ fuel ih =>
    rw [Nat.add_right_comm]
    simp only [victimLoopF] at h ⊢
    rcases hs : scanFrom (fun w => rr w == MAX_RRPV) 0 LLC_WAYS with _ | v
    · rw [hs] at h
      exact ih h
    · rfl

/-- The victim-way update touches only the RRPV table. -/
theorem FindVictimWay_shape (st : PolicyState) (set : Nat) :
    ∃ f, (FindVictimWay st set).2 = { st with RRPV := f } := by
  unfold FindVictimWay
  rcases scanFrom (fun w => !st.valid_entries set w) 0 LLC_WAYS with _ | w
  · rcases victimLoopF (MAX_RRPV + 1) fun w => st.RRPV set w with _ | ⟨w, rr⟩
    · exact ⟨st.RRPV, rfl⟩
    · exact ⟨_, rfl⟩
  · exact ⟨st.RRPV, rfl⟩

/-! ## The range invariant and its preservation -/

/-- Range invariant of the spec: every rrpv, SHCT and STCT entry is a 2-bit
value and the dynamic streaming threshold stays in [1, 3]. -/
def Inv (st : PolicyState) : Prop :=
  (∀ s w, st.RRPV s w ≤ MAX_RRPV) ∧
    (∀ i, st.SHCT i ≤ SHCT_MAX) ∧
    (∀ i, st.STCT i ≤ STCT_MAX) ∧
    1 ≤ st.g_STCT_THRESHOLD ∧ st.g_STCT_THRESHOLD ≤ STCT_MAX

theorem Inv_init : Inv InitReplacementState :=
  ⟨fun _ _ => show MAX_RRPV ≤ MAX_RRPV by decide,
    fun _ => show SHCT_INIT ≤ SHCT_MAX by decide,
    fun _ => show STCT_INIT ≤ STCT_MAX by decide, by decide, by decide⟩

theorem Inv_streamUpdate {st : PolicyState} (h : Inv st) (sig blk : Nat) :
    Inv (streamUpdate st sig blk) := by
  obtain ⟨h1, h2, h3, h4, h5⟩ := h
  refine ⟨h1, h2, fun i => ?_, h4, h5⟩
  have hsig := h3 sig
  have hi := h3 i
  simp only [streamUpdate]
  split_ifs <;> omega

theorem Inv_FindVictimWay {st : PolicyState} (h : Inv st) (set : Nat) :
    Inv (FindVictimWay st set).2 := by
  obtain ⟨h1, h2, h3, h4, h5⟩ := h
  unfold FindVictimWay
  rcases scanFrom (fun w => !st.valid_entries set w) 0 LLC_WAYS with _ | w
  · rcases hl : victimLoopF (MAX_RRPV + 1) fun w => st.RRPV set w with _ | ⟨w, rr⟩
    · exact ⟨h1, h2, h3, h4, h5⟩
    · refine ⟨fun s v => ?_, h2, h3, h4, h5⟩
      have hb := victimLoopF_some_bounded hl (fun v => h1 set v)
      by_cases hs : s = set
      · simp only [hs, if_pos rfl]
        exact hb v
      · simp only [if_neg hs]
        exact h1 s v
  · exact ⟨h1, h2, h3, h4, h5⟩

theorem Inv_evictPenalty {st : PolicyState} (h : Inv st) (set way : Nat) :
    Inv (evictPenalty st set way) := by
  obtain ⟨h1, h2, h3, h4, h5⟩ := h
  refine ⟨h1, fun i => ?_, h3, h4, h5⟩
  have ho := h2 (st.sig_mem set way)
  have hi := h2 i
  simp only [evictPenalty]
  split_ifs <;> omega

theorem Inv_installLine {st : PolicyState} (h : Inv st) (set way sig : Nat) :
    Inv (installLine st set way sig) := by
  obtain ⟨h1, h2, h3, h4, h5⟩ := h
  refine ⟨fun s w => ?_, h2, h3, h4, h5⟩
  have := h1 s w
  have hM : 1 ≤ MAX_RRPV := by decide
  simp only [installLine]
  split_ifs <;> omega

theorem Inv_GetVictimInSet {st : PolicyState} (h : Inv st) (cpu set : Nat)
    (cs : Nat → BLOCK) (PC paddr type : Nat) :
    Inv (GetVictimInSet st cpu set cs PC paddr type).2 :=
  Inv_installLine
    (Inv_evictPenalty (Inv_FindVictimWay (Inv_streamUpdate h _ _) set) _ _) _ _ _

theorem Inv_phaseReset {st : PolicyState} (h : Inv st) : Inv (phaseReset st) := by
  obtain ⟨h1, h2, h3, h4, h5⟩ := h
  unfold phaseReset
  split_ifs
  · exact ⟨h1, h2, fun _ => show STCT_INIT ≤ STCT_MAX by decide, h4, h5⟩
  · exact ⟨h1, h2, h3, h4, h5⟩

theorem Inv_adjustThreshold (r : ℚ) {st : PolicyState} (h : Inv st) :
    Inv (adjustThreshold r st) := by
  obtain ⟨h1, h2, h3, h4, h5⟩ := h
  unfold adjustThreshold
  split_ifs with ha hb
  · refine ⟨h1, h2, h3, ?_, ?_⟩
    · show 1 ≤ st.g_STCT_THRESHOLD + 1
      omega
    · show st.g_STCT_THRESHOLD + 1 ≤ STCT_MAX
      have := ha.2
      omega
  · refine ⟨h1, h2, h3, ?_, ?_⟩
    · show 1 ≤ st.g_STCT_THRESHOLD - 1
      have := hb.2
      omega
    · show st.g_STCT_THRESHOLD - 1 ≤ STCT_MAX
      omega
  · exact ⟨h1, h2, h3, h4, h5⟩

theorem Inv_MonitorEpoch {st : PolicyState} (h : Inv st) :
    Inv (MonitorEpoch st) := by
  obtain ⟨h1, h2, h3, h4, h5⟩ := Inv_adjustThreshold (streamRatio st) (Inv_phaseReset h)
  exact ⟨h1, h2, h3, h4, h5⟩

theorem Inv_hitUpdate {st : PolicyState} (h : Inv st) (set way : Nat) :
    Inv (hitUpdate st set way) := by
  obtain ⟨h1, h2, h3, h4, h5⟩ := h
  refine ⟨fun s w => ?_, fun i => ?_, h3, h4, h5⟩
  · have := h1 s w
    simp only [hitUpdate]
    split_ifs <;> omega
  · have := h2 i
    have := h2 (st.sig_mem set way)
    simp only [hitUpdate]
    split_ifs <;> omega

theorem Inv_missUpdate {st : PolicyState} (h : Inv st) : Inv (missUpdate st) := by
  obtain ⟨h1, h2, h3, h4, h5⟩ := h
  exact ⟨h1, h2, h3, h4, h5⟩

theorem Inv_UpdateReplacementState {st : PolicyState} (h : Inv st)
    (cpu set way paddr PC victim_addr type hit : Nat) :
    Inv (UpdateReplacementState st cpu set way paddr PC victim_addr type hit) := by
  simp only [UpdateReplacementState]
  split_ifs <;>
    first
    | exact Inv_MonitorEpoch (Inv_hitUpdate h set way)
    | exact Inv_MonitorEpoch (Inv_missUpdate h)
    | exact Inv_hitUpdate h set way
    | exact Inv_missUpdate h

/-- Claim C2 core: the invariant holds in every reachable state. -/
theorem Inv_Reachable {st : PolicyState} (h : Reachable st) : Inv st := by
  induction h with
  | init => exact Inv_init
  | victim st cpu set cs PC paddr type _ ih =>
    exact Inv_GetVictimInSet ih cpu set cs PC paddr type
  | update st cpu set way paddr PC victim_addr type hit _ ih =>
    exact Inv_UpdateReplacementState ih cpu set way paddr PC victim_addr type hit

/-! ## Claim theorems -/

/-- Claim C2: for every state reachable from InitReplacementState by any
sequence of GetVictimInSet and UpdateReplacementState calls, every RRPV value
is in [0,3], every SHCT entry is in [0,3], every STCT entry is in [0,3], and
the dynamic streaming threshold g_STCT_THRESHOLD is in [1,3] (the lower
bounds 0 are inherent to the Nat encoding of the unsigned counters). -/
theorem C2_reachable_ranges {st : PolicyState} (h : Reachable st) :
    (∀ s w, st.RRPV s w ≤ 3) ∧ (∀ i, st.SHCT i ≤ 3) ∧ (∀ i, st.STCT i ≤ 3) ∧
      1 ≤ st.g_STCT_THRESHOLD ∧ st.g_STCT_THRESHOLD ≤ 3 :=
  Inv_Reachable h

/-- Witness for C2 at a concrete reachable state: one GetVictimInSet call and
one UpdateReplacementState call after initialization. -/
theorem C2_reachable_ranges_witness :
    (UpdateReplacementState
        (GetVictimInSet InitReplacementState 0 0 cs0 5 320 0).2
        0 0 0 320 5 0 0 0).RRPV 0 0 ≤ 3 ∧
      (UpdateReplacementState
        (GetVictimInSet InitReplacementState 0 0 cs0 5 320 0).2
        0 0 0 320 5 0 0 0).SHCT 5 ≤ 3 ∧
      (UpdateReplacementState
        (GetVictimInSet InitReplacementState 0 0 cs0 5 320 0).2
        0 0 0 320 5 0 0 0).STCT 5 ≤ 3 ∧
      1 ≤ (UpdateReplacementState
        (GetVictimInSet InitReplacementState 0 0 cs0 5 320 0).2
        0 0 0 320 5 0 0 0).g_STCT_THRESHOLD ∧
      (UpdateReplacementState
        (GetVictimInSet InitReplacementState 0 0 cs0 5 320 0).2
        0 0 0 320 5 0 0 0).g_STCT_THRESHOLD ≤ 3 := by
  have h := C2_reachable_ranges
    (Reachable.update _ 0 0 0 320 5 0 0 0
      (Reachable.victim _ 0 0 cs0 5 320 0 Reachable.init))
  exact ⟨h.1 0 0, h.2.1 5, h.2.2.1 5, h.2.2.2.1, h.2.2.2.2⟩

/-- Claim C7: on any set state satisfying the 2-bit rrpv data-model bound,
FindVictimWay returns a way index in [0, 16), the scan-then-age loop already
succeeds with fuel MAX_RRPV + 1 (at most MAX_RRPV + 1 scans, hence at most
MAX_RRPV aging passes), and extra fuel never changes the result, so the
unbounded C loop terminates with that value. -/
theorem C7_terminates (st : PolicyState) (set : Nat)
    (h : ∀ w, w < LLC_WAYS → st.RRPV set w ≤ MAX_RRPV) :
    (FindVictimWay st set).1 < LLC_WAYS ∧
      (victimLoopF (MAX_RRPV + 1) fun w => st.RRPV set w).isSome = true ∧
      ∀ k, victimLoopF (MAX_RRPV + 1 + k) (fun w => st.RRPV set w) =
        victimLoopF (MAX_RRPV + 1) fun w => st.RRPV set w := by
  have hsome : (victimLoopF (MAX_RRPV + 1) fun w => st.RRPV set w).isSome = true := by
    refine victimLoopF_isSome ⟨0, by decide, ?_⟩ h
    omega
  refine ⟨?_, hsome, fun k => victimLoopF_stable k hsome⟩
  unfold FindVictimWay
  rcases hs : scanFrom (fun w => !st.valid_entries set w) 0 LLC_WAYS with _ | w
  · simp only [hs]
    rcases hv : victimLoopF (MAX_RRPV + 1) fun w => st.RRPV set w with _ | ⟨w, rr⟩
    · rw [hv] at hsome
      simp at hsome
    · simp only [hv]
      exact victimLoopF_some_lt hv
  · simp only [hs]
    have := scanFrom_eq_some hs
    omega

/-- Witness for C7 at the all-invalid initial state of set 0. -/
theorem C7_terminates_witness :
    (FindVictimWay InitReplacementState 0).1 < LLC_WAYS ∧
      (victimLoopF (MAX_RRPV + 1) fun w => InitReplacementState.RRPV 0 w).isSome = true ∧
      victimLoopF (MAX_RRPV + 1 + 7) (fun w => InitReplacementState.RRPV 0 w) =
        victimLoopF (MAX_RRPV + 1) fun w => InitReplacementState.RRPV 0 w := by
  have h := C7_terminates InitReplacementState 0 (by decide)
  exact ⟨h.1, h.2.1, h.2.2 7⟩

/-- Claim C10: the way returned by GetVictimInSet and the entire resulting
policy state are independent of the current_set argument; the function never
reads it, consulting only its own tracked valid/rrpv state. -/
theorem C10_current_set_independent (st : PolicyState) (cpu set : Nat)
    (cs1 cs2 : Nat → BLOCK) (PC paddr type : Nat) :
    GetVictimInSet st cpu set cs1 PC paddr type =
      GetVictimInSet st cpu set cs2 PC paddr type := rfl

/-- Claim C1 counterexample: in the spec's end-to-end scenario the very first
miss (previously-unseen PC signature 0, block address 0, all 16 ways invalid)
installs way 0 with rrpv = 0, not rrpv = 3: a fresh signature has
SHCT = SHCT_INIT = 2, which already meets SHCT_THRESHOLD = 2, so it
classifies hot and takes the rrpv = 0 tier. -/
theorem C1_counterexample :
    (GetVictimInSet InitReplacementState 0 0 cs0 0 0 0).1 = 0 ∧
      ¬ (GetVictimInSet InitReplacementState 0 0 cs0 0 0 0).2.RRPV 0 0 = 3 := by
  decide

set_option maxRecDepth 100000 in
/-- Claim C1 as amended: in the 1-set scenario (16 misses with the 16
distinct previously-unseen signatures 0..15 and sequential block addresses
0..15), every miss installs its line with rrpv = 0 — fresh signatures are
hot since SHCT_INIT = SHCT_THRESHOLD = 2 — filling all 16 ways, and the 17th
miss (signature 16, block address 16) evicts a way whose rrpv equals 3 after
aging: way 0, whose rrpv the selector's aging passes raised from 0 to 3. -/
theorem C1_amended_scenario :
    ((List.range 16).all fun w =>
        (runN 16).valid_entries 0 w && ((runN 16).RRPV 0 w == 0)) = true ∧
      (FindVictimWay (streamUpdate (runN 16) (GetSignature 16)
          ((1024 % 2 ^ 64) >>> 6)) 0).1 = 0 ∧
      ((FindVictimWay (streamUpdate (runN 16) (GetSignature 16)
          ((1024 % 2 ^ 64) >>> 6)) 0).2).RRPV 0 0 = 3 ∧
      (GetVictimInSet (runN 16) 0 0 cs0 16 1024 0).1 = 0 := by
  decide

/-! ## Frame lemmas for the GetVictimInSet pipeline -/

theorem streamUpdate_RRPV (st : PolicyState) (sig blk : Nat) :
    (streamUpdate st sig blk).RRPV = st.RRPV := rfl

theorem streamUpdate_valid_entries (st : PolicyState) (sig blk : Nat) :
    (streamUpdate st sig blk).valid_entries = st.valid_entries := rfl

theorem streamUpdate_sig_mem (st : PolicyState) (sig blk : Nat) :
    (streamUpdate st sig blk).sig_mem = st.sig_mem := rfl

theorem streamUpdate_has_hit (st : PolicyState) (sig blk : Nat) :
    (streamUpdate st sig blk).has_hit = st.has_hit := rfl

theorem streamUpdate_is_streaming (st : PolicyState) (sig blk : Nat) :
    (streamUpdate st sig blk).is_streaming = st.is_streaming := rfl

theorem streamUpdate_SHCT (st : PolicyState) (sig blk : Nat) :
    (streamUpdate st sig blk).SHCT = st.SHCT := rfl

theorem streamUpdate_thr (st : PolicyState) (sig blk : Nat) :
    (streamUpdate st sig blk).g_STCT_THRESHOLD = st.g_STCT_THRESHOLD := rfl

theorem streamUpdate_stream_misses (st : PolicyState) (sig blk : Nat) :
    (streamUpdate st sig blk).stream_misses = st.stream_misses := rfl

theorem evictPenalty_RRPV (st : PolicyState) (set way : Nat) :
    (evictPenalty st set way).RRPV = st.RRPV := rfl

theorem evictPenalty_STCT (st : PolicyState) (set way : Nat) :
    (evictPenalty st set way).STCT = st.STCT := rfl

theorem evictPenalty_last_addr (st : PolicyState) (set way : Nat) :
    (evictPenalty st set way).last_addr = st.last_addr := rfl

theorem evictPenalty_thr (st : PolicyState) (set way : Nat) :
    (evictPenalty st set way).g_STCT_THRESHOLD = st.g_STCT_THRESHOLD := rfl

theorem installLine_SHCT (st : PolicyState) (set way sig : Nat) :
    (installLine st set way sig).SHCT = st.SHCT := rfl

theorem installLine_STCT (st : PolicyState) (set way sig : Nat) :
    (installLine st set way sig).STCT = st.STCT := rfl

theorem installLine_last_addr (st : PolicyState) (set way sig : Nat) :
    (installLine st set way sig).last_addr = st.last_addr := rfl

theorem installLine_thr (st : PolicyState) (set way sig : Nat) :
    (installLine st set way sig).g_STCT_THRESHOLD = st.g_STCT_THRESHOLD := rfl

theorem installLine_stream_misses (st : PolicyState) (set way sig : Nat) :
    (installLine st set way sig).stream_misses = st.stream_misses := rfl

theorem FindVictimWay_valid_entries (st : PolicyState) (set : Nat) :
    (FindVictimWay st set).2.valid_entries = st.valid_entries := by
  obtain ⟨f, hf⟩ := FindVictimWay_shape st set
  rw [hf]

theorem FindVictimWay_sig_mem (st : PolicyState) (set : Nat) :
    (FindVictimWay st set).2.sig_mem = st.sig_mem := by
  obtain ⟨f, hf⟩ := FindVictimWay_shape st set
  rw [hf]

theorem FindVictimWay_has_hit (st : PolicyState) (set : Nat) :
    (FindVictimWay st set).2.has_hit = st.has_hit := by
  obtain ⟨f, hf⟩ := FindVictimWay_shape st set
  rw [hf]

theorem FindVictimWay_is_streaming (st : PolicyState) (set : Nat) :
    (FindVictimWay st set).2.is_streaming = st.is_streaming := by
  obtain ⟨f, hf⟩ := FindVictimWay_shape st set
  rw [hf]

theorem FindVictimWay_SHCT (st : PolicyState) (set : Nat) :
    (FindVictimWay st set).2.SHCT = st.SHCT := by
  obtain ⟨f, hf⟩ := FindVictimWay_shape st set
  rw [hf]

theorem FindVictimWay_STCT (st : PolicyState) (set : Nat) :
    (FindVictimWay st set).2.STCT = st.STCT := by
  obtain ⟨f, hf⟩ := FindVictimWay_shape st set
  rw [hf]

theorem FindVictimWay_last_addr (st : PolicyState) (set : Nat) :
    (FindVictimWay st set).2.last_addr = st.last_addr := by
  obtain ⟨f, hf⟩ := FindVictimWay_shape st set
  rw [hf]

theorem FindVictimWay_thr (st : PolicyState) (set : Nat) :
    (FindVictimWay st set).2.g_STCT_THRESHOLD = st.g_STCT_THRESHOLD := by
  obtain ⟨f, hf⟩ := FindVictimWay_shape st set
  rw [hf]

theorem FindVictimWay_stream_misses (st : PolicyState) (set : Nat) :
    (FindVictimWay st set).2.stream_misses = st.stream_misses := by
  obtain ⟨f, hf⟩ := FindVictimWay_shape st set
  rw [hf]

/-- Claim C6: the rrpv installed by GetVictimInSet follows the three-tier
policy — 0 when the incoming signature's SHCT (read at installation time,
after any eviction penalty) meets the fixed hot threshold, else 1 when its
STCT (after this call's stream-detector update) meets the current dynamic
streaming threshold, else MAX_RRPV — with the hot case taking priority.
All values on the right are read from the post-call state, which agrees with
the state at installation time for each of these fields. -/
theorem C6_insertion_tier (st : PolicyState) (cpu set : Nat) (cs : Nat → BLOCK)
    (PC paddr type : Nat) :
    (GetVictimInSet st cpu set cs PC paddr type).2.RRPV set
        (GetVictimInSet st cpu set cs PC paddr type).1 =
      if SHCT_THRESHOLD ≤
          (GetVictimInSet st cpu set cs PC paddr type).2.SHCT (GetSignature PC) then 0
      else if (GetVictimInSet st cpu set cs PC paddr type).2.g_STCT_THRESHOLD ≤
          (GetVictimInSet st cpu set cs PC paddr type).2.STCT (GetSignature PC) then 1
      else MAX_RRPV := by
  simp only [GetVictimInSet, installLine]
  simp

/-- Claim C8: if some way of the set is invalid, GetVictimInSet returns the
lowest-index invalid way, and no other line's rrpv in that set changes (in
particular no aging pass runs; only the chosen way's fields are rewritten by
the installation). -/
theorem C8_invalid_fast_path (st : PolicyState) (cpu set : Nat) (cs : Nat → BLOCK)
    (PC paddr type : Nat)
    (hinv : ∃ w, w < LLC_WAYS ∧ st.valid_entries set w = false) :
    (GetVictimInSet st cpu set cs PC paddr type).1 < LLC_WAYS ∧
      st.valid_entries set (GetVictimInSet st cpu set cs PC paddr type).1 = false ∧
      (∀ v, v < (GetVictimInSet st cpu set cs PC paddr type).1 →
        st.valid_entries set v = true) ∧
      ∀ v, v ≠ (GetVictimInSet st cpu set cs PC paddr type).1 →
        (GetVictimInSet st cpu set cs PC paddr type).2.RRPV set v = st.RRPV set v := by
  obtain ⟨w, hw, hval⟩ := hinv
  have hp : (fun v => !(streamUpdate st (GetSignature PC)
      ((paddr % 2 ^ 64) >>> 6)).valid_entries set v) w = true := by
    simp only [streamUpdate]
    simp [hval]
  have hsome := @scanFrom_isSome
    (fun v => !(streamUpdate st (GetSignature PC)
      ((paddr % 2 ^ 64) >>> 6)).valid_entries set v)
    0 LLC_WAYS w (Nat.zero_le w) (by omega) hp
  rcases hs : scanFrom (fun v => !(streamUpdate st (GetSignature PC)
      ((paddr % 2 ^ 64) >>> 6)).valid_entries set v) 0 LLC_WAYS with _ | w0
  · rw [hs] at hsome
    simp at hsome
  · have hspec := scanFrom_eq_some hs
    have hfvw : FindVictimWay (streamUpdate st (GetSignature PC)
        ((paddr % 2 ^ 64) >>> 6)) set =
        (w0, streamUpdate st (GetSignature PC) ((paddr % 2 ^ 64) >>> 6)) := by
      unfold FindVictimWay
      simp only [hs]
    have hway : (GetVictimInSet st cpu set cs PC paddr type).1 = w0 := by
      simp only [GetVictimInSet, hfvw]
    refine ⟨?_, ?_, ?_, ?_⟩
    · rw [hway]
      omega
    · rw [hway]
      have := hspec.2.2.1
      simp only [streamUpdate] at this
      simpa using this
    · intro v hv
      rw [hway] at hv
      have := hspec.2.2.2 v (Nat.zero_le v) hv
      simp only [streamUpdate] at this
      simpa using this
    · intro v hv
      rw [hway] at hv
      simp only [GetVictimInSet, hfvw, installLine, evictPenalty_RRPV,
        streamUpdate_RRPV]
      simp [hv]

/-- Claim C9: when GetVictimInSet replaces a valid line that was never hit,
the evicted line's stored signature's SHCT is decremented with floor 0, and
the global streaming-miss counter is additionally incremented exactly when
the evicted line was classified streaming; replacing a valid line that was
hit leaves every SHCT entry and the streaming-miss counter unchanged. -/
theorem C9_eviction_penalty (st : PolicyState) (cpu set : Nat) (cs : Nat → BLOCK)
    (PC paddr type : Nat) :
    (st.valid_entries set (GetVictimInSet st cpu set cs PC paddr type).1 = true →
      st.has_hit set (GetVictimInSet st cpu set cs PC paddr type).1 = false →
      (GetVictimInSet st cpu set cs PC paddr type).2.SHCT
          (st.sig_mem set (GetVictimInSet st cpu set cs PC paddr type).1) =
        (if 0 < st.SHCT (st.sig_mem set (GetVictimInSet st cpu set cs PC paddr type).1) then
          st.SHCT (st.sig_mem set (GetVictimInSet st cpu set cs PC paddr type).1) - 1
        else st.SHCT (st.sig_mem set (GetVictimInSet st cpu set cs PC paddr type).1)) ∧
      (GetVictimInSet st cpu set cs PC paddr type).2.stream_misses =
        (if st.is_streaming set (GetVictimInSet st cpu set cs PC paddr type).1 = true then
          st.stream_misses + 1
        else st.stream_misses)) ∧
    (st.valid_entries set (GetVictimInSet st cpu set cs PC paddr type).1 = true →
      st.has_hit set (GetVictimInSet st cpu set cs PC paddr type).1 = true →
      (∀ i, (GetVictimInSet st cpu set cs PC paddr type).2.SHCT i = st.SHCT i) ∧
        (GetVictimInSet st cpu set cs PC paddr type).2.stream_misses = st.stream_misses) := by
  constructor
  · intro hvalid hhit
    simp only [GetVictimInSet] at hvalid hhit
    constructor
    · simp only [GetVictimInSet, installLine_SHCT, evictPenalty,
        FindVictimWay_sig_mem, FindVictimWay_valid_entries, FindVictimWay_has_hit,
        FindVictimWay_SHCT, streamUpdate_sig_mem, streamUpdate_valid_entries,
        streamUpdate_has_hit, streamUpdate_SHCT]
      simp_all
    · simp only [GetVictimInSet, installLine_stream_misses, evictPenalty,
        FindVictimWay_sig_mem, FindVictimWay_valid_entries, FindVictimWay_has_hit,
        FindVictimWay_is_streaming, FindVictimWay_stream_misses,
        streamUpdate_sig_mem, streamUpdate_valid_entries, streamUpdate_has_hit,
        streamUpdate_is_streaming, streamUpdate_stream_misses]
      simp_all
  · intro hvalid hhit
    simp only [GetVictimInSet] at hvalid hhit
    constructor
    · intro i
      simp only [GetVictimInSet, installLine_SHCT, evictPenalty,
        FindVictimWay_sig_mem, FindVictimWay_valid_entries, FindVictimWay_has_hit,
        FindVictimWay_SHCT, streamUpdate_sig_mem, streamUpdate_valid_entries,
        streamUpdate_has_hit, streamUpdate_SHCT]
      simp_all
    · simp only [GetVictimInSet, installLine_stream_misses, evictPenalty,
        FindVictimWay_sig_mem, FindVictimWay_valid_entries, FindVictimWay_has_hit,
        FindVictimWay_is_streaming, FindVictimWay_stream_misses,
        streamUpdate_sig_mem, streamUpdate_valid_entries, streamUpdate_has_hit,
        streamUpdate_is_streaming, streamUpdate_stream_misses]
      simp_all

/-! ## C5: stream detector -/

theorem blk_addr_lt (paddr : Nat) : (paddr % 2 ^ 64) >>> 6 < 2 ^ 58 := by
  have h1 : paddr % 2 ^ 64 < 2 ^ 64 := Nat.mod_lt _ (by norm_num)
  rw [Nat.shiftRight_eq_div_pow]
  omega

/-- On 64-bit operands below the sentinel, the int64 delta computed by the
source is ±1 exactly when the mathematical-integer delta is ±1. -/
theorem toInt64_delta_iff {blk last : Nat} (hblk : blk < 2 ^ 58)
    (hlast : last < 2 ^ 64) (hne : last ≠ INVALID_BLK) :
    (toInt64 blk - toInt64 last = 1 ∨ toInt64 blk - toInt64 last = -1) ↔
      ((blk : ℤ) - (last : ℤ) = 1 ∨ (blk : ℤ) - (last : ℤ) = -1) := by
  simp only [INVALID_BLK] at hne
  have hb : blk % 2 ^ 64 = blk := Nat.mod_eq_of_lt (by omega)
  have hl : last % 2 ^ 64 = last := Nat.mod_eq_of_lt hlast
  unfold toInt64
  rw [hb, hl]
  by_cases hc : last < 2 ^ 63
  · rw [if_pos (by omega), if_pos hc]
  · rw [if_pos (by omega), if_neg hc]
    constructor
    · rintro (h | h) <;> omega
    · rintro (h | h) <;> omega

/-- Claim C5: on every GetVictimInSet call for 64-bit-range table state, with
s the PC's signature and a the block address paddr >> 6: when last_addr[s]
holds a prior address, STCT[s] is incremented saturating at STCT_MAX if a
differs from it by exactly +1 or -1 and decremented flooring at 0 otherwise;
when last_addr[s] holds the none-sentinel, STCT[s] is unchanged; in all cases
last_addr[s] ends up equal to a. -/
theorem C5_stream_detector (st : PolicyState) (cpu set : Nat) (cs : Nat → BLOCK)
    (PC paddr type : Nat)
    (hlast : st.last_addr (GetSignature PC) < 2 ^ 64) :
    (st.last_addr (GetSignature PC) ≠ INVALID_BLK →
      ((((paddr % 2 ^ 64) >>> 6 : Nat) : ℤ) - (st.last_addr (GetSignature PC) : ℤ) = 1 ∨
        (((paddr % 2 ^ 64) >>> 6 : Nat) : ℤ) - (st.last_addr (GetSignature PC) : ℤ) = -1) →
      (GetVictimInSet st cpu set cs PC paddr type).2.STCT (GetSignature PC) =
        (if st.STCT (GetSignature PC) < STCT_MAX then st.STCT (GetSignature PC) + 1
         else st.STCT (GetSignature PC))) ∧
    (st.last_addr (GetSignature PC) ≠ INVALID_BLK →
      ¬ ((((paddr % 2 ^ 64) >>> 6 : Nat) : ℤ) - (st.last_addr (GetSignature PC) : ℤ) = 1 ∨
        (((paddr % 2 ^ 64) >>> 6 : Nat) : ℤ) - (st.last_addr (GetSignature PC) : ℤ) = -1) →
      (GetVictimInSet st cpu set cs PC paddr type).2.STCT (GetSignature PC) =
        (if 0 < st.STCT (GetSignature PC) then st.STCT (GetSignature PC) - 1
         else st.STCT (GetSignature PC))) ∧
    (st.last_addr (GetSignature PC) = INVALID_BLK →
      (GetVictimInSet st cpu set cs PC paddr type).2.STCT (GetSignature PC) =
        st.STCT (GetSignature PC)) ∧
    (GetVictimInSet st cpu set cs PC paddr type).2.last_addr (GetSignature PC) =
      (paddr % 2 ^ 64) >>> 6 := by
  have hSTCT : (GetVictimInSet st cpu set cs PC paddr type).2.STCT =
      (streamUpdate st (GetSignature PC) ((paddr % 2 ^ 64) >>> 6)).STCT := by
    simp only [GetVictimInSet, installLine_STCT, evictPenalty_STCT, FindVictimWay_STCT]
  have hLA : (GetVictimInSet st cpu set cs PC paddr type).2.last_addr =
      (streamUpdate st (GetSignature PC) ((paddr % 2 ^ 64) >>> 6)).last_addr := by
    simp only [GetVictimInSet, installLine_last_addr, evictPenalty_last_addr,
      FindVictimWay_last_addr]
  refine ⟨?_, ?_, ?_, ?_⟩
  · intro hne hpm
    rw [hSTCT]
    show (if _ ∧ _ then _ else _) = _
    rw [if_pos ⟨rfl, hne⟩,
      if_pos ((toInt64_delta_iff (blk_addr_lt paddr) hlast hne).mpr hpm)]
  · intro hne hpm
    rw [hSTCT]
    show (if _ ∧ _ then _ else _) = _
    rw [if_pos ⟨rfl, hne⟩,
      if_neg (fun hd => hpm ((toInt64_delta_iff (blk_addr_lt paddr) hlast hne).mp hd))]
  · intro heq
    rw [hSTCT]
    show (if _ ∧ _ then _ else _) = _
    rw [if_neg (fun hc => hc.2 heq)]
  · rw [hLA]
    show (if _ then _ else _) = _
    rw [if_pos rfl]

/-- Witness for C5: signature 5 last saw block 9, the new access is block 10
(delta +1), so STCT[5] rises from 1 to 2 and last_addr[5] becomes 10. -/
theorem C5_stream_detector_witness :
    (GetVictimInSet stC5 0 0 cs0 5 640 0).2.STCT 5 = 2 ∧
      (GetVictimInSet stC5 0 0 cs0 5 640 0).2.last_addr 5 = 10 := by
  have h := C5_stream_detector stC5 0 0 cs0 5 640 0 (by decide)
  have hsig : GetSignature 5 = 5 := by decide
  constructor
  · have h1 := h.1 (by decide) (Or.inl (by decide))
    rw [hsig] at h1
    rw [h1]
    decide
  · have h4 := h.2.2.2
    rw [hsig] at h4
    rw [h4]
    decide

/-! ## C3 and C4: the epoch monitor -/

theorem phaseReset_SHCT (st : PolicyState) : (phaseReset st).SHCT = st.SHCT := by
  unfold phaseReset
  split_ifs <;> rfl

theorem phaseReset_thr (st : PolicyState) :
    (phaseReset st).g_STCT_THRESHOLD = st.g_STCT_THRESHOLD := by
  unfold phaseReset
  split_ifs <;> rfl

theorem adjustThreshold_shape (r : ℚ) (st : PolicyState) :
    ∃ g, adjustThreshold r st = { st with g_STCT_THRESHOLD := g } := by
  unfold adjustThreshold
  split_ifs
  · exact ⟨_, rfl⟩
  · exact ⟨_, rfl⟩
  · exact ⟨st.g_STCT_THRESHOLD, rfl⟩

/-- Claim C3: when MonitorEpoch runs at an epoch boundary with a miss-rate
swing of at least PHASE_CHANGE_DELTA = 0.05 from the previous epoch, every
STCT entry is reset to STCT_INIT and every last_addr entry is cleared to the
none-sentinel, while every SHCT entry is left unchanged by the reset. -/
theorem C3_phase_reset (st : PolicyState)
    (h : PHASE_CHANGE_DELTA ≤ |epochMissRate st - st.prev_miss_rate|) :
    (∀ i, (MonitorEpoch st).STCT i = STCT_INIT) ∧
      (∀ i, (MonitorEpoch st).last_addr i = INVALID_BLK) ∧
      ∀ i, (MonitorEpoch st).SHCT i = st.SHCT i := by
  obtain ⟨g, hg⟩ := adjustThreshold_shape (streamRatio st) (phaseReset st)
  have hST : (MonitorEpoch st).STCT = (phaseReset st).STCT := by
    simp only [MonitorEpoch, hg]
  have hLA : (MonitorEpoch st).last_addr = (phaseReset st).last_addr := by
    simp only [MonitorEpoch, hg]
  have hSH : (MonitorEpoch st).SHCT = (phaseReset st).SHCT := by
    simp only [MonitorEpoch, hg]
  have hres : (phaseReset st).STCT = (fun _ => STCT_INIT) ∧
      (phaseReset st).last_addr = fun _ => INVALID_BLK := by
    unfold phaseReset
    rw [if_pos h]
    exact ⟨rfl, rfl⟩
  refine ⟨fun i => ?_, fun i => ?_, fun i => ?_⟩
  · rw [hST, hres.1]
  · rw [hLA, hres.2]
  · rw [hSH, phaseReset_SHCT]

/-- Witness for C3: ten accesses with one miss give epoch miss rate 1/10
against a previous rate of 0, a swing of at least 0.05, and the reset fires
while SHCT entry 7 keeps its value. -/
theorem C3_phase_reset_witness :
    (MonitorEpoch stC3).STCT 7 = STCT_INIT ∧
      (MonitorEpoch stC3).last_addr 7 = INVALID_BLK ∧
      (MonitorEpoch stC3).SHCT 7 = stC3.SHCT 7 := by
  have hmr : epochMissRate stC3 = 1 / 10 := by
    norm_num [epochMissRate, stC3, InitReplacementState]
  have h : PHASE_CHANGE_DELTA ≤ |epochMissRate stC3 - stC3.prev_miss_rate| := by
    rw [hmr, show stC3.prev_miss_rate = 0 from rfl, sub_zero,
      abs_of_nonneg (by norm_num)]
    norm_num [PHASE_CHANGE_DELTA]
  obtain ⟨hA, hB, hC⟩ := C3_phase_reset stC3 h
  exact ⟨hA 7, hB 7, hC 7⟩

/-- Claim C4: at an epoch boundary, a stream hit ratio (0 when there were no
stream inserts) below 0.10 raises the dynamic streaming threshold by exactly
1 capped at STCT_MAX = 3; a ratio above 0.70 lowers it by exactly 1 floored
at 1; any ratio in between leaves it unchanged. -/
theorem C4_threshold_adapt (st : PolicyState) :
    (streamRatio st < STREAM_LOW_RATIO →
      (MonitorEpoch st).g_STCT_THRESHOLD =
        (if st.g_STCT_THRESHOLD < STCT_MAX then st.g_STCT_THRESHOLD + 1
         else st.g_STCT_THRESHOLD)) ∧
    ( STREAM_HIGH_RATIO < streamRatio st →
      (MonitorEpoch st).g_STCT_THRESHOLD =
        (if 1 < st.g_STCT_THRESHOLD then st.g_STCT_THRESHOLD - 1
         else st.g_STCT_THRESHOLD)) ∧
    ( STREAM_LOW_RATIO ≤ streamRatio st → streamRatio st ≤ STREAM_HIGH_RATIO →
      (MonitorEpoch st).g_STCT_THRESHOLD = st.g_STCT_THRESHOLD) := by
  have hlh : STREAM_LOW_RATIO < STREAM_HIGH_RATIO := by
    norm_num [ STREAM_LOW_RATIO, STREAM_HIGH_RATIO]
  have hme : (MonitorEpoch st).g_STCT_THRESHOLD =
      (adjustThreshold (streamRatio st) (phaseReset st)).g_STCT_THRESHOLD := rfl
  refine ⟨?_, ?_, ?_⟩
  · intro h
    rw [hme]
    unfold adjustThreshold
    simp only [phaseReset_thr]
    split_ifs <;> simp only [phaseReset_thr] <;>
      first | rfl | tauto | (exfalso; linarith)
  · intro h
    rw [hme]
    unfold adjustThreshold
    simp only [phaseReset_thr]
    split_ifs <;> simp only [phaseReset_thr] <;>
      first | rfl | tauto | (exfalso; linarith)
  · intro h1 h2
    rw [hme]
    unfold adjustThreshold
    simp only [phaseReset_thr]
    rw [if_neg (fun hc => absurd hc.1 (not_lt.mpr h1)),
      if_neg (fun hc => absurd hc.1 (not_lt.mpr h2))]
    exact phaseReset_thr st

/-- Witness for C4: ratio 1/20 raises the threshold from 2 to 3, ratio 9/10
lowers it from 2 to 1, ratio 1/2 leaves it at 2. -/
theorem C4_threshold_adapt_witness :
    (MonitorEpoch stC4a).g_STCT_THRESHOLD = 3 ∧
      (MonitorEpoch stC4b).g_STCT_THRESHOLD = 1 ∧
      (MonitorEpoch stC4c).g_STCT_THRESHOLD = 2 := by
  have ha := (C4_threshold_adapt stC4a).1
    (by norm_num [streamRatio, stC4a, InitReplacementState, STREAM_LOW_RATIO])
  have hb := (C4_threshold_adapt stC4b).2.1
    (by norm_num [streamRatio, stC4b, InitReplacementState, STREAM_HIGH_RATIO])
  have hc := (C4_threshold_adapt stC4c).2.2
    (by norm_num [streamRatio, stC4c, InitReplacementState, STREAM_LOW_RATIO])
    (by norm_num [streamRatio, stC4c, InitReplacementState, STREAM_HIGH_RATIO])
  refine ⟨?_, ?_, ?_⟩
  · rw [ha]
    decide
  · rw [hb]
    decide
  · rw [hc]
    decide

/-! ## Remaining witnesses -/

/-- Witness for C8: ways 0..2 are valid, so the call returns way 3 (the
lowest-index invalid way) and way 7's rrpv is untouched. -/
theorem C8_invalid_fast_path_witness :
    (GetVictimInSet stC8 0 0 cs0 5 320 0).1 = 3 ∧
      stC8.valid_entries 0 (GetVictimInSet stC8 0 0 cs0 5 320 0).1 = false ∧
      (GetVictimInSet stC8 0 0 cs0 5 320 0).2.RRPV 0 7 = stC8.RRPV 0 7 := by
  have h := C8_invalid_fast_path stC8 0 0 cs0 5 320 0 ⟨3, by decide, by decide⟩
  exact ⟨by decide, h.2.1, h.2.2.2 7 (by decide)⟩

/-- Witness for C9: evicting the valid, never-hit, streaming line of
signature 7 (SHCT 2) drops SHCT[7] to 1 and counts a streaming miss; in the
already-hit variant both stay unchanged. -/
theorem C9_eviction_penalty_witness :
    ((GetVictimInSet stC9 0 0 cs0 5 320 0).2.SHCT
        (stC9.sig_mem 0 (GetVictimInSet stC9 0 0 cs0 5 320 0).1) = 1 ∧
      (GetVictimInSet stC9 0 0 cs0 5 320 0).2.stream_misses = 1) ∧
      ((GetVictimInSet stC9b 0 0 cs0 5 320 0).2.SHCT 7 = stC9b.SHCT 7 ∧
        (GetVictimInSet stC9b 0 0 cs0 5 320 0).2.stream_misses =
          stC9b.stream_misses) := by
  have hA := (C9_eviction_penalty stC9 0 0 cs0 5 320 0).1 (by decide) (by decide)
  have hB := (C9_eviction_penalty stC9b 0 0 cs0 5 320 0).2 (by decide) (by decide)
  refine ⟨⟨?_, ?_⟩, hB.1 7, hB.2⟩
  · rw [hA.1]
    decide
  · rw [hA.2]
    decide

end AdaptiveShipD
